import Mathlib

/-!
Verification of the download-orchestration core of the yt-downloader
repository (current iteration: the `part_001` source file; the older
`src/index.js` iteration shares the same sanitizer, range parser and
progress regexes).

JavaScript strings are modelled either as `List Char` (for the
line-oriented progress/error parsing, whose inputs are tool output) or as
`List Nat` of UTF-16 code units (for `sanitizeFilename`, where
`String.prototype.substring` counts code units).  Regex matching is
modelled by hand-compiled leftmost-first backtracking matchers for the
three patterns the source uses; at each definition a comment justifies
why the simplifications of the backtracking search are exhaustive.
-/

set_option maxHeartbeats 1000000
set_option maxRecDepth 10000

namespace YtDl

/-! ## Character classes (JS semantics) -/

/-- JS `\d` over `List Char` inputs: ASCII digits. -/
def isDig (c : Char) : Bool := c.isDigit

/-- JS `\s` (WhiteSpace ∪ LineTerminator) as a predicate on characters.
Covers the ECMA-262 production: TAB LF VT FF CR SP NBSP OGHAM, the
U+2000..U+200A range, LS PS NNBSP MMSP IDEOGRAPHIC-SPACE ZWNBSP. -/
def jsWsChar (c : Char) : Bool :=
  c = ' ' ∨ c = '\t' ∨ c = '\n' ∨ c = '\r' ∨
  c = Char.ofNat 0x0b ∨ c = Char.ofNat 0x0c ∨
  c = Char.ofNat 0xa0 ∨ c = Char.ofNat 0x1680 ∨
  (0x2000 ≤ c.toNat ∧ c.toNat ≤ 0x200a) ∨
  c = Char.ofNat 0x2028 ∨ c = Char.ofNat 0x2029 ∨
  c = Char.ofNat 0x202f ∨ c = Char.ofNat 0x205f ∨
  c = Char.ofNat 0x3000 ∨ c = Char.ofNat 0xfeff

/-- JS `.` (without the `s` flag) matches everything except a
LineTerminator: LF, CR, LS, PS. -/
def nonTerm (c : Char) : Bool :=
  ¬ (c = '\n' ∨ c = '\r' ∨ c = Char.ofNat 0x2028 ∨ c = Char.ofNat 0x2029)

/-- JS `String.prototype.trim` over `List Char`: drop the `\s` set from
both ends. -/
def jsTrim (s : List Char) : List Char :=
  ((s.dropWhile jsWsChar).reverse.dropWhile jsWsChar).reverse

/-! ## The filename sanitizer (`sanitizeFilename`, part_001 lines 47-62)

JS strings are sequences of UTF-16 code units and `substring(0, 150)`
counts code units, so this function is embedded over `List Nat` of code
units.  All character classes involved lie in the BMP, where one code
unit is one character. -/

/-- Code units of the characters the first `replace` maps to `_`:
the set `< > : " / \ | ? *`. -/
def forbiddenU (u : Nat) : Bool :=
  u = 60 ∨ u = 62 ∨ u = 58 ∨ u = 34 ∨ u = 47 ∨ u = 92 ∨ u = 124 ∨ u = 63 ∨ u = 42

/-- Code units removed by the second `replace`: the C0/C1 control ranges
`\u0000-\u001f` and `\u007f-\u009f`. -/
def controlU (u : Nat) : Bool :=
  u ≤ 0x1f ∨ (0x7f ≤ u ∧ u ≤ 0x9f)

/-- The JS `\s` class on code units (same set as `jsWsChar`; every member
is a single BMP code unit). -/
def jsWsU (u : Nat) : Bool :=
  u = 0x20 ∨ u = 0x09 ∨ u = 0x0a ∨ u = 0x0d ∨ u = 0x0b ∨ u = 0x0c ∨
  u = 0xa0 ∨ u = 0x1680 ∨ (0x2000 ≤ u ∧ u ≤ 0x200a) ∨
  u = 0x2028 ∨ u = 0x2029 ∨ u = 0x202f ∨ u = 0x205f ∨
  u = 0x3000 ∨ u = 0xfeff

/-- The underscore code unit. -/
def underscoreU : Nat := 95

/-- `replace(/\s+/g, '_')`: every maximal run of whitespace becomes one
underscore.  The boolean remembers whether the previous unit was
whitespace (i.e. the `_` for the current run was already emitted). -/
def replaceWsRuns : List Nat → Bool → List Nat
  | [], _ => []
  | u :: rest, inWs =>
    if jsWsU u then
      if inWs then replaceWsRuns rest true
      else underscoreU :: replaceWsRuns rest true
    else u :: replaceWsRuns rest false

/-- `replace(/_+/g, '_')`: collapse each maximal run of underscores to a
single underscore. -/
def collapseUnderscores : List Nat → Bool → List Nat
  | [], _ => []
  | u :: rest, prev =>
    if u = underscoreU then
      if prev then collapseUnderscores rest true
      else underscoreU :: collapseUnderscores rest true
    else u :: collapseUnderscores rest false

/-- `replace(/^_|_$/g, '')` removes a single leading underscore: the `^_`
alternative can only match at position 0. -/
def dropLeadUnderscore : List Nat → List Nat
  | u :: rest => if u = underscoreU then rest else u :: rest
  | [] => []

/-- `replace(/^_|_$/g, '')`, trailing half: `_$` can only match the final
unit. -/
def dropTrailUnderscore (l : List Nat) : List Nat :=
  (dropLeadUnderscore l.reverse).reverse

/-- `String.prototype.trim` on code units. -/
def jsTrimU (l : List Nat) : List Nat :=
  ((l.dropWhile jsWsU).reverse.dropWhile jsWsU).reverse

/-- The code units of the fallback literal `download`. -/
def downloadFallback : List Nat := [100, 111, 119, 110, 108, 111, 97, 100]

/-- The sanitizer pipeline before the `|| 'download'` fallback, i.e. the
chain of `replace`/`trim`/`substring` calls of `sanitizeFilename`
(part_001 lines 47-62). -/
def sanitizeCore (filename : List Nat) (asciiOnly : Bool) : List Nat :=
  let s1 := filename.map (fun u => if forbiddenU u then underscoreU else u)
  let s2 := s1.filter (fun u => ¬ controlU u)
  let s3 := if asciiOnly then s2.filter (fun u => u ≤ 0x7f) else s2
  let s4 := replaceWsRuns s3 false
  let s5 := collapseUnderscores s4 false
  let s6 := dropTrailUnderscore (dropLeadUnderscore s5)
  let s7 := jsTrimU s6
  s7.take 150

/-- `sanitizeFilename` (part_001 lines 47-62): sanitize, truncate to 150
code units, and fall back to the literal `download` when the result is
empty (`|| 'download'`, the empty string being falsy). -/
def sanitizeFilename (filename : List Nat) (asciiOnly : Bool) : List Nat :=
  let r := sanitizeCore filename asciiOnly
  if r = [] then downloadFallback else r

/-! ## The batch orchestrator (`downloadPlaylist`, part_001 lines 500-520)

The loop body drives one download per selected entry inside a
`try`/`catch`, increments `successful` on resolution and `failed` on
rejection, and always continues to the next entry.  Abstracting each
entry's outcome to a boolean, the loop is the fold below. -/

/-- One iteration of the playlist loop: bump the success or failure
counter according to the entry's outcome. -/
def batchStep (acc : Nat × Nat) (ok : Bool) : Nat × Nat :=
  if ok then (acc.1 + 1, acc.2) else (acc.1, acc.2 + 1)

/-- The sequential playlist loop over the selected entries' outcomes,
starting from `successful = 0, failed = 0`. -/
def runBatch (outcomes : List Bool) : Nat × Nat :=
  outcomes.foldl batchStep (0, 0)

/-! ## The argument builder (`downloadVideoWithProgress`, part_001
lines 230-276)

The argument vector is assembled from the base flags, the optional
cookies flag (present only when a cookies path is configured, nonempty
and the file exists — the `existsSync` result is passed in explicitly),
the format-selection table keyed by (format, quality), and the URL. -/

/-- The expected output extension for a media kind (part_001 line 239):
`format === 'audio' ? 'mp3' : 'mp4'`. -/
def extFor (format : String) : List Char :=
  if format = "audio" then "mp3".data else "mp4".data

/-- Build the full yt-dlp argument vector for one download attempt. -/
def buildDownloadArgs (format quality : String) (cookiesFile : Option String)
    (cookiesExists : Bool) (outputTemplate url : String) : List String :=
  let base := ["--no-playlist", "-o", "\"" ++ outputTemplate ++ "\"",
               "--restrict-filenames", "--newline", "--no-warnings", "--progress"]
  let withCookies :=
    match cookiesFile with
    | some cf => if cf ≠ "" ∧ cookiesExists then base ++ ["--cookies", cf] else base
    | none => base
  let withFormat :=
    if format = "audio" then
      withCookies ++ ["-x", "--audio-format", "mp3", "--audio-quality", "0"]
    else if format = "video" then
      withCookies ++ ["-f", "bestvideo[ext=mp4]/bestvideo", "--merge-output-format", "mp4"]
    else
      (if quality = "highest" then
        withCookies ++ ["-f", "bestvideo[ext=mp4]+bestaudio[ext=m4a]/best[ext=mp4]/best"]
      else
        withCookies ++ ["-f", "worstvideo[ext=mp4]+worstaudio[ext=m4a]/worst[ext=mp4]/worst"])
      ++ ["--merge-output-format", "mp4"]
  withFormat ++ [url]

/-! ## The progress parser (`updateProgress` closure in
`downloadVideoWithProgress`, part_001 lines 293-321)

Two regexes are applied to every line:
percent `(\d+\.?\d*)%` and speed `(\d+\.?\d*\s*[KMG]?i?B\/s)/i`.
JS `String.prototype.match` without the `g` flag returns the leftmost
match, with the usual greedy backtracking semantics.  The matchers below
try every start position left to right; at each position the greedy
backtracking search collapses as justified in the comments. -/

/-- Match `(\d+\.?\d*)%` anchored at the start of `s`, returning the
captured number text.  Backtracking analysis: shortening the greedy
`\d+` only exposes another digit, which `\.?`/`%` cannot match and `\d*`
re-consumes, so maximal `\d+` is exhaustive; likewise after a consumed
dot, any shorter `\d*` leaves a digit where `%` is required, so only the
maximal `\d*` can succeed; if the dot branch fails, the dotless branch
needs `%` where the dot stands and fails too. -/
def matchPercentAt (s : List Char) : Option (List Char) :=
  let d1 := s.takeWhile isDig
  if d1 = [] then none
  else
    match s.dropWhile isDig with
    | '.' :: r2 =>
      let d2 := r2.takeWhile isDig
      if (r2.dropWhile isDig).head? = some '%' then some (d1 ++ '.' :: d2) else none
    | r1 => if r1.head? = some '%' then some d1 else none

/-- Leftmost match of `(\d+\.?\d*)%` in the line. -/
def firstPercentMatch : List Char → Option (List Char)
  | [] => none
  | c :: rest =>
    match matchPercentAt (c :: rest) with
    | some cap => some cap
    | none => firstPercentMatch rest

/-- Character classes of the speed pattern, case-insensitive (`/i`). -/
def isKMG (c : Char) : Bool :=
  c = 'K' ∨ c = 'M' ∨ c = 'G' ∨ c = 'k' ∨ c = 'm' ∨ c = 'g'

def isLetterI (c : Char) : Bool := c = 'i' ∨ c = 'I'

def isLetterB (c : Char) : Bool := c = 'B' ∨ c = 'b'

def isLetterS (c : Char) : Bool := c = 's' ∨ c = 'S'

/-- The mandatory tail `B\/s` of the speed pattern. -/
def matchBslashS : List Char → Option (List Char)
  | b :: sl :: sc :: _ =>
    if isLetterB b ∧ sl = '/' ∧ isLetterS sc then some [b, '/', sc] else none
  | _ => none

/-- The `[KMG]?i?B\/s` tail, alternatives in greedy order: both optionals
matched, only `[KMG]`, only `i`, neither. -/
def matchSpeedTail (r : List Char) : Option (List Char) :=
  (match r with
   | k :: i :: rest =>
     if isKMG k ∧ isLetterI i then (matchBslashS rest).map (fun t => k :: i :: t) else none
   | _ => none) <|>
  (match r with
   | k :: rest => if isKMG k then (matchBslashS rest).map (fun t => k :: t) else none
   | _ => none) <|>
  (match r with
   | i :: rest => if isLetterI i then (matchBslashS rest).map (fun t => i :: t) else none
   | _ => none) <|>
  matchBslashS r

/-- Match `(\d+\.?\d*\s*[KMG]?i?B\/s)` (case-insensitive) anchored at the
start of `s`.  Backtracking analysis: handing back characters from the
greedy `\d+`/`\d*`/`\s*` runs only exposes a digit or whitespace
character, which none of `[KMG]`, `i`, `B` can match (the classes are
disjoint from digits, dot and `\s`), so only the maximal runs can lead
to a match; the dotless alternative after a consumed dot fails at the
dot for the same reason.  The two optional classes remain, in greedy
order in `matchSpeedTail`. -/
def matchSpeedAt (s : List Char) : Option (List Char) :=
  let d1 := s.takeWhile isDig
  if d1 = [] then none
  else
    let r1 := s.dropWhile isDig
    let dotPart := match r1 with | '.' :: t => (['.'] , t) | _ => (([] : List Char), r1)
    let d2 := dotPart.2.takeWhile isDig
    let r3 := dotPart.2.dropWhile isDig
    let ws := r3.takeWhile jsWsChar
    let r4 := r3.dropWhile jsWsChar
    (matchSpeedTail r4).map (fun t => d1 ++ dotPart.1 ++ d2 ++ ws ++ t)

/-- Leftmost match of the speed pattern in the line. -/
def firstSpeedMatch : List Char → Option (List Char)
  | [] => none
  | c :: rest =>
    match matchSpeedAt (c :: rest) with
    | some cap => some cap
    | none => firstSpeedMatch rest

/-- Numeric value of a digit run, as JS `parseFloat` computes it for the
integer part of a captured number. -/
def natDigits (ds : List Char) : Nat :=
  ds.foldl (fun a c => a * 10 + (c.toNat - 48)) 0

/-- JS `parseFloat` on a percent capture, which by construction is
`digits` optionally followed by `.` and `digits`.  Such decimal literals
denote exact rationals. -/
def parseDecimal (cap : List Char) : ℚ :=
  let d1 := cap.takeWhile isDig
  let frac := match cap.dropWhile isDig with | '.' :: t => t | _ => []
  (natDigits d1 : ℚ) + (natDigits frac : ℚ) / (10 : ℚ) ^ frac.length

/-- The parser state visible to the progress bar: the phase label
(`currentStatus`), the last rendered percent and speed, and whether the
bar was started. -/
structure ProgressState where
  status : List Char
  percent : ℚ
  speed : List Char
  started : Bool
deriving DecidableEq

/-- Substring containment, JS `String.prototype.includes`. -/
def containsSub (hay needle : List Char) : Bool :=
  hay.tails.any (fun t => needle.isPrefixOf t)

/-- The phase-detection chain at the top of `updateProgress` (part_001
lines 295-305); a line matching none of the substrings leaves the
current status unchanged. -/
def detectPhase (line cur : List Char) : List Char :=
  if containsSub line "Downloading".data ∧ containsSub line "video".data then
    "Downloading video...".data
  else if containsSub line "Downloading".data ∧ containsSub line "audio".data then
    "Downloading audio...".data
  else if containsSub line "Merging".data then
    "Merging files...".data
  else if containsSub line "Extracting audio".data ∨ containsSub line "Converting".data then
    "Converting to MP3...".data
  else if containsSub line "Deleting original".data then
    "Cleaning up...".data
  else cur

/-- `updateProgress` (part_001 lines 293-321): detect the phase, then, if
the percent regex matches, render the parsed percent together with the
speed capture (or `N/A`); a line without a percent match changes neither
percent nor speed. -/
def updateProgress (line : List Char) (st : ProgressState) : ProgressState :=
  let st1 := { st with status := detectPhase line st.status }
  match firstPercentMatch line with
  | some cap =>
    { st1 with
      percent := parseDecimal cap
      speed := match firstSpeedMatch line with | some sp => sp | none => "N/A".data
      started := true }
  | none => st1

/-- The state before any line arrives: `currentStatus = 'Starting...'`,
bar not yet started, initial percent 0. -/
def startState : ProgressState :=
  { status := "Starting...".data, percent := 0, speed := "Starting...".data, started := false }

/-! ## Error-message extraction (`downloadVideoWithProgress`,
part_001 lines 368-369)

On a nonzero exit the accumulated stderr text is scanned with
`/ERROR:\s*(.+)/i`; the capture is trimmed, and when nothing matches the
message falls back to `` `Download failed with code ${code}` ``. -/

/-- Case-insensitive literal prefix: strip `pat` from the front of `s`
comparing via `Char.toLower`, returning the remainder. -/
def stripCI : List Char → List Char → Option (List Char)
  | [], s => some s
  | _ :: _, [] => none
  | p :: ps, c :: cs => if p.toLower = c.toLower then stripCI ps cs else none

/-- Match `ERROR:\s*(.+)` (case-insensitive) anchored at the start of
`s`, returning the capture.  After the literal, the greedy `\s*`
consumes the maximal whitespace run; if a character remains it is
neither whitespace nor a line terminator, so `(.+)` matches the maximal
run of non-terminators from there.  If nothing remains, `\s*` backtracks
to the largest whitespace consumption whose remainder starts with a
non-terminator; that remainder's head is the last non-terminator of the
run and everything after it is a terminator, so the capture is that
single character. -/
def matchErrorAt (s : List Char) : Option (List Char) :=
  match stripCI "error:".data s with
  | none => none
  | some rest =>
    match rest.dropWhile jsWsChar with
    | c :: cs => some ((c :: cs).takeWhile nonTerm)
    | [] =>
      match rest.reverse.dropWhile (fun c => ¬ nonTerm c) with
      | c :: _ => some [c]
      | [] => none

/-- Leftmost match of `ERROR:\s*(.+)` in the accumulated stderr text. -/
def firstErrorMatch : List Char → Option (List Char)
  | [] => none
  | c :: rest =>
    match matchErrorAt (c :: rest) with
    | some cap => some cap
    | none => firstErrorMatch rest

/-- The failure message surfaced for a nonzero exit (part_001 lines
368-369): the trimmed capture of the error pattern, or the generic
fallback naming the exit code. -/
def failureMessage (code : Nat) (stderr : List Char) : List Char :=
  match firstErrorMatch stderr with
  | some cap => jsTrim cap
  | none => "Download failed with code ".data ++ (Nat.repr code).data

/-! ## The retry controller (`getVideoInfo`, part_001 lines 174-227)

`getVideoInfo` builds a list of exactly two argument variants (base, and
base plus the alternate tv-client extractor arguments) and tries them in
order.  One attempt resolves only when the subprocess exits zero with
nonempty stdout that parses as JSON (`if (code === 0 && output)` then
`JSON.parse`); any other terminal result rejects with an error message,
and the loop retries while attempts remain, finally re-throwing the last
attempt's error. -/

/-- The two AttemptSpecs of `getVideoInfo` (part_001 lines 178-185). -/
def getVideoInfoAttempts (cookiesFile : Option String) (cookiesExists : Bool)
    (url : String) : List (List String) :=
  let baseArgs :=
    match cookiesFile with
    | some cf =>
      if cf ≠ "" ∧ cookiesExists then
        ["--dump-json", "--no-playlist", "--cookies", cf]
      else ["--dump-json", "--no-playlist"]
    | none => ["--dump-json", "--no-playlist"]
  [baseArgs ++ [url],
   baseArgs ++ ["--extractor-args", "youtube:player_client=tv", url]]

/-- The observable terminal result of one metadata attempt: exit code,
accumulated stdout and stderr, and whether `JSON.parse` succeeds on the
stdout. -/
structure AttemptRun where
  code : Int
  stdout : List Char
  stderr : List Char
  parseOk : Bool
deriving DecidableEq

/-- Classification of one attempt by the `close` handler (part_001 lines
199-210): `none` is resolution, `some msg` is rejection with `msg`. -/
def attemptOutcome (a : AttemptRun) : Option (List Char) :=
  if a.code = 0 ∧ a.stdout ≠ [] then
    if a.parseOk then none else some "Failed to parse video info".data
  else
    some (if a.stderr ≠ [] then a.stderr else "Failed to fetch video info".data)

/-- The retry loop of `getVideoInfo` (part_001 lines 187-226) over the
attempts' terminal results: returns the final outcome (`none` =
Succeeded) and the number of attempts actually launched.  The source
loop cannot run with an empty attempts list (there are always two); the
`[]` equation is the vacuous value of the loop falling through. -/
def runRetry : List AttemptRun → Option (List Char) × Nat
  | [] => (some [], 0)
  | a :: rest =>
    match attemptOutcome a with
    | none => (none, 1)
    | some msg =>
      match rest with
      | [] => (some msg, 1)
      | b :: more =>
        let r := runRetry (b :: more)
        (r.1, r.2 + 1)

/-! ## The staging manager (`downloadVideoWithProgress`, part_001 lines
330-379)

On exit code zero the per-attempt temp directory is scanned for files
with the expected extension, each is copied into the destination
directory, and the temp directory is removed; on a nonzero exit, and on
a spawn error, the temp directory is removed and nothing is copied.
The filesystem slice the handler touches is the temp directory (its
existence and file list) plus the destination file list. -/

structure StagingState where
  tempExists : Bool
  tempFiles : List (List Char)
  destFiles : List (List Char)
deriving DecidableEq

/-- `files.filter(f => f.endsWith('.' + ext))` (part_001 line 340). -/
def matchingFiles (ext : List Char) (files : List (List Char)) : List (List Char) :=
  files.filter (fun f => List.isSuffixOf ('.' :: ext) f)

/-- The `close` handler of the download subprocess (part_001 lines
330-372): returns the filesystem state afterwards and `none` on
resolution or `some msg` on rejection. -/
def downloadClose (code : Nat) (ext stderr : List Char) (st : StagingState) :
    StagingState × Option (List Char) :=
  if code = 0 then
    let targets := matchingFiles ext st.tempFiles
    ({ tempExists := false, tempFiles := [], destFiles := st.destFiles ++ targets }, none)
  else
    ({ tempExists := false, tempFiles := [], destFiles := st.destFiles },
     some (failureMessage code stderr))

/-- The `error` handler of the download subprocess (part_001 lines
374-378): remove the temp directory, promote nothing, reject. -/
def downloadSpawnError (st : StagingState) : StagingState :=
  { tempExists := false, tempFiles := [], destFiles := st.destFiles }

/-! ## The playlist range selector (`downloadPlaylist`, part_001 lines
469-475)

A range input containing `-` is split on `-`, the first two pieces are
parsed with `parseInt`, and the entries are taken with
`items.slice(start - 1, end)`; otherwise the input is split on `,`, each
piece parsed and decremented, and `indices.map(i => items[i])
.filter(Boolean)` keeps the in-range positions. -/

/-- JS `parseInt(s)` restricted to radix 10: skip leading whitespace,
an optional sign, then the maximal digit prefix; no digits is `NaN`
(modelled as `none`). -/
def jsParseInt (s : List Char) : Option Int :=
  let t := s.dropWhile jsWsChar
  let signed : Int × List Char :=
    match t with
    | '-' :: r => (-1, r)
    | '+' :: r => (1, r)
    | _ => (1, t)
  let ds := signed.2.takeWhile isDig
  if ds = [] then none else some (signed.1 * (natDigits ds : Int))

/-- Split a character list on a separator character, JS
`String.prototype.split` with a single-character separator. -/
def splitOnChar (sep : Char) : List Char → List (List Char)
  | [] => [[]]
  | c :: rest =>
    match splitOnChar sep rest with
    | p :: ps => if c = sep then [] :: p :: ps else (c :: p) :: ps
    | [] => if c = sep then [[], []] else [[c]]

/-- `Array.prototype.slice(s, e)` per ECMA-262: negative indices count
from the end, both are clamped to `[0, length]`. -/
def jsSlice (l : List α) (s e : Int) : List α :=
  let n : Int := l.length
  let k := if s < 0 then max (n + s) 0 else min s n
  let f := if e < 0 then max (n + e) 0 else min e n
  (l.drop k.toNat).take (f - k).toNat

/-- The range-selection branch of `downloadPlaylist` (part_001 lines
469-475).  In the `-` branch, `const [start, end]` destructures the
first two parsed pieces; a `NaN` start makes `start - 1` `NaN`, which
`slice` coerces to 0, a `NaN` end coerces to 0, and a missing second
piece is `undefined`, which `slice` treats as the length. -/
def selectRange (inp : List Char) (items : List α) : List α :=
  if inp.contains '-' then
    let parts := (splitOnChar '-' inp).map (fun p => jsParseInt (jsTrim p))
    let a : Option Int := match parts with | p :: _ => p | [] => none
    let b : Option (Option Int) := match parts with | _ :: p :: _ => some p | _ => none
    let sliceStart : Int := match a with | some v => v - 1 | none => 0
    match b with
    | some (some v) => jsSlice items sliceStart v
    | some none => jsSlice items sliceStart 0
    | none => jsSlice items sliceStart items.length
  else
    let idxs : List (Option Int) :=
      (splitOnChar ',' inp).map (fun p => (jsParseInt (jsTrim p)).map (fun v => v - 1))
    idxs.filterMap (fun oi =>
      match oi with
      | some i => if 0 ≤ i then items.get? i.toNat else none
      | none => none)

/-! ## Concrete inputs used by the claim theorems and witnesses -/

/-- The progress line of spec §8 property 2. -/
def dlLine : List Char := "[download]  42.5% of ~10.00MiB at 1.20MiB/s".data

/-- A ten-entry playlist, identified by position. -/
def tenEntries : List Nat := [1, 2, 3, 4, 5, 6, 7, 8, 9, 10]

/-- A line whose percent token exceeds 100. -/
def overLine : List Char := "[download] 500.0% of x".data

/-- Stderr text carrying a recognized error line. -/
def errLine : List Char := "ERROR: Video unavailable\nmore".data

/-! ## Helper lemmas -/

theorem mem_of_dropWhile {p : Nat → Bool} {l : List Nat} {u : Nat}
    (h : u ∈ l.dropWhile p) : u ∈ l :=
  List.Sublist.mem h (List.dropWhile_sublist _)

theorem mem_jsTrimU {l : List Nat} {u : Nat} (h : u ∈ jsTrimU l) : u ∈ l := by
  unfold jsTrimU at h
  rw [List.mem_reverse] at h
  have h2 := mem_of_dropWhile h
  rw [List.mem_reverse] at h2
  exact mem_of_dropWhile h2

theorem mem_dropLeadUnderscore {l : List Nat} {u : Nat}
    (h : u ∈ dropLeadUnderscore l) : u ∈ l := by
  cases l with
  | nil => simp [dropLeadUnderscore] at h
  | cons v rest =>
    simp only [dropLeadUnderscore] at h
    split at h
    · exact List.mem_cons_of_mem _ h
    · exact h

theorem mem_dropTrailUnderscore {l : List Nat} {u : Nat}
    (h : u ∈ dropTrailUnderscore l) : u ∈ l := by
  unfold dropTrailUnderscore at h
  rw [List.mem_reverse] at h
  have h2 := mem_dropLeadUnderscore h
  rwa [List.mem_reverse] at h2

theorem mem_collapseUnderscores :
    ∀ (l : List Nat) (b : Bool) {u : Nat}, u ∈ collapseUnderscores l b → u ∈ l := by
  intro l
  induction l with
  | nil => intro b u h; simp [collapseUnderscores] at h
  | cons v rest ih =>
    intro b u h
    by_cases hv : v = underscoreU
    · simp only [collapseUnderscores, if_pos hv] at h
      cases b with
      | true => exact List.mem_cons_of_mem _ (ih _ h)
      | false =>
        rcases List.mem_cons.mp h with h1 | h1
        · rw [h1, ← hv]; exact List.mem_cons_self _ _
        · exact List.mem_cons_of_mem _ (ih _ h1)
    · simp only [collapseUnderscores, if_neg hv] at h
      rcases List.mem_cons.mp h with h1 | h1
      · rw [h1]; exact List.mem_cons_self _ _
      · exact List.mem_cons_of_mem _ (ih _ h1)

theorem mem_replaceWsRuns :
    ∀ (l : List Nat) (b : Bool) {u : Nat}, u ∈ replaceWsRuns l b →
      (u = underscoreU ∨ u ∈ l) ∧ jsWsU u = false := by
  intro l
  induction l with
  | nil => intro b u h; simp [replaceWsRuns] at h
  | cons v rest ih =>
    intro b u h
    by_cases hv : jsWsU v
    · simp only [replaceWsRuns, if_pos hv] at h
      cases b with
      | true =>
        rcases ih _ h with ⟨h1, h2⟩
        exact ⟨h1.imp id (List.mem_cons_of_mem _), h2⟩
      | false =>
        rcases List.mem_cons.mp h with h1 | h1
        · exact ⟨Or.inl h1, by rw [h1]; decide⟩
        · rcases ih _ h1 with ⟨h2, h3⟩
          exact ⟨h2.imp id (List.mem_cons_of_mem _), h3⟩
    · simp only [replaceWsRuns, if_neg hv] at h
      rcases List.mem_cons.mp h with h1 | h1
      · refine ⟨Or.inr (by rw [h1]; exact List.mem_cons_self _ _), ?_⟩
        rw [h1]; exact Bool.eq_false_iff.mpr hv
      · rcases ih _ h1 with ⟨h2, h3⟩
        exact ⟨h2.imp id (List.mem_cons_of_mem _), h3⟩

theorem mem_step1_forbidden {l : List Nat} {u : Nat}
    (h : u ∈ l.map (fun v => if forbiddenU v then underscoreU else v)) :
    forbiddenU u = false := by
  rcases List.mem_map.mp h with ⟨v, _, rfl⟩
  by_cases hv : forbiddenU v = true
  · rw [if_pos hv]; decide
  · rw [if_neg hv]; exact Bool.eq_false_iff.mpr hv

/-- Every code unit surviving the sanitizer pipeline is neither a
forbidden filename character nor whitespace. -/
theorem sanitizeCore_mem (l : List Nat) (ascii : Bool) (u : Nat)
    (hu : u ∈ sanitizeCore l ascii) : forbiddenU u = false ∧ jsWsU u = false := by
  simp only [sanitizeCore] at hu
  have h1 := List.mem_of_mem_take hu
  have h2 := mem_jsTrimU h1
  have h3 := mem_dropTrailUnderscore h2
  have h4 := mem_dropLeadUnderscore h3
  have h5 := mem_collapseUnderscores _ _ h4
  rcases mem_replaceWsRuns _ _ h5 with ⟨h6, hws⟩
  refine ⟨?_, hws⟩
  rcases h6 with h7 | h7
  · rw [h7]; decide
  · revert h7
    split
    · intro h7
      exact mem_step1_forbidden (List.mem_filter.mp (List.mem_filter.mp h7).1).1
    · intro h7
      exact mem_step1_forbidden (List.mem_filter.mp h7).1

theorem sanitizeCore_length_le (l : List Nat) (ascii : Bool) :
    (sanitizeCore l ascii).length ≤ 150 := by
  simp only [sanitizeCore]
  simp

/-- The batch fold from an arbitrary counter pair. -/
theorem batch_foldl (l : List Bool) :
    ∀ s f : Nat, l.foldl batchStep (s, f) = (s + l.count true, f + l.count false) := by
  induction l with
  | nil => intro s f; simp
  | cons v rest ih =>
    intro s f
    cases v <;> simp [batchStep, ih, List.count_cons] <;> omega

theorem count_true_add_count_false (l : List Bool) :
    l.count true + l.count false = l.length := by
  induction l with
  | nil => rfl
  | cons v rest ih => cases v <;> simp [List.count_cons] <;> omega

/-- The percent regex only captures unsigned decimal digit text, so its
parsed value is nonnegative. -/
theorem parseDecimal_nonneg (cap : List Char) : 0 ≤ parseDecimal cap := by
  simp only [parseDecimal]
  have h1 : (0 : ℚ) ≤ (natDigits (cap.takeWhile isDig) : ℚ) := Nat.cast_nonneg _
  refine add_nonneg h1 (div_nonneg (Nat.cast_nonneg _) ?_)
  positivity

/-- For a 1-indexed range `A-B` with `A ≥ 1`, `slice(A - 1, B)` is the
inclusive slice from position `A` to position `B`, with out-of-range `B`
clamped by `take` and `A` beyond the length giving the empty list. -/
theorem jsSlice_nat {α : Type} (l : List α) (A B : Nat) (hA : 1 ≤ A) :
    jsSlice l ((A : Int) - 1) (B : Int) = (l.drop (A - 1)).take (B - (A - 1)) := by
  simp only [jsSlice]
  rw [if_neg (by omega), if_neg (by omega)]
  have h1 : (min ((A : Int) - 1) (l.length : Int)).toNat = min (A - 1) l.length := by omega
  have h2 : (min (B : Int) (l.length : Int) - min ((A : Int) - 1) (l.length : Int)).toNat
      = min B l.length - min (A - 1) l.length := by omega
  rw [h1, h2]
  by_cases hle : A - 1 ≤ l.length
  · rw [Nat.min_eq_left hle, List.take_eq_take]
    rw [List.length_drop]
    omega
  · have hge : l.length ≤ A - 1 := by omega
    rw [Nat.min_eq_right hge, List.drop_length, List.drop_eq_nil_of_le hge]
    simp

/-! ## Claims -/

/-- C1 counterexample: with two AttemptSpecs, the first exiting nonzero
and the second exiting zero, the final outcome need not be Succeeded —
a zero exit with empty stdout takes the rejection branch of
`if (code === 0 && output)`, so the retry loop ends in failure. -/
theorem claim_C1_counterexample :
    (⟨1, [], "boom".data, false⟩ : AttemptRun).code ≠ 0 ∧
    (⟨0, [], [], true⟩ : AttemptRun).code = 0 ∧
    (runRetry [⟨1, [], "boom".data, false⟩, ⟨0, [], [], true⟩]).1 ≠ none := by
  decide

/-- C1 (amended): with a sequence of 2 AttemptSpecs, if the first
attempt exits nonzero and the second exits zero with nonempty stdout
that parses, the final outcome is Succeeded and exactly 2 attempts are
made; a successful attempt short-circuits all remaining AttemptSpecs,
and `getVideoInfo` always builds exactly 2 AttemptSpecs. -/
theorem claim_C1 :
    (∀ a1 a2 : AttemptRun, a1.code ≠ 0 → a2.code = 0 → a2.stdout ≠ [] →
      a2.parseOk = true → runRetry [a1, a2] = (none, 2)) ∧
    (∀ (a : AttemptRun) (rest : List AttemptRun), attemptOutcome a = none →
      runRetry (a :: rest) = (none, 1)) ∧
    (∀ (cf : Option String) (ce : Bool) (url : String),
      (getVideoInfoAttempts cf ce url).length = 2) := by
  refine ⟨?_, ?_, ?_⟩
  · intro a1 a2 h1 h2 h3 h4
    have o1 : attemptOutcome a1
        = some (if a1.stderr ≠ [] then a1.stderr else "Failed to fetch video info".data) := by
      unfold attemptOutcome
      rw [if_neg (by simp [h1])]
    have o2 : attemptOutcome a2 = none := by
      unfold attemptOutcome
      rw [if_pos ⟨h2, h3⟩, if_pos h4]
    simp [runRetry, o1, o2]
  · intro a rest h
    simp [runRetry, h]
  · intro cf ce url
    cases cf <;> simp [getVideoInfoAttempts]

/-- C1 witness: a concrete failing-then-succeeding pair of attempts. -/
theorem claim_C1_witness :
    runRetry [⟨1, [], "boom".data, false⟩, ⟨0, "j".data, [], true⟩] = (none, 2) :=
  claim_C1.1 _ _ (by decide) (by decide) (by decide) (by decide)

/-- C2: on any failing attempt — nonzero exit or spawn error — the
per-attempt temporary directory is removed, the destination directory is
untouched, and the attempt rejects. -/
theorem claim_C2 :
    (∀ (code : Nat) (ext stderr : List Char) (st : StagingState), code ≠ 0 →
      (downloadClose code ext stderr st).1.tempExists = false ∧
      (downloadClose code ext stderr st).1.destFiles = st.destFiles ∧
      (downloadClose code ext stderr st).2 = some (failureMessage code stderr)) ∧
    (∀ st : StagingState,
      (downloadSpawnError st).tempExists = false ∧
      (downloadSpawnError st).destFiles = st.destFiles) := by
  constructor
  · intro code ext stderr st h
    simp [downloadClose, h]
  · intro st
    simp [downloadSpawnError]

/-- C2 witness: a concrete nonzero exit with one pending temp file. -/
theorem claim_C2_witness :
    (downloadClose 1 "mp3".data [] ⟨true, ["a.mp3".data], []⟩).1.tempExists = false ∧
    (downloadClose 1 "mp3".data [] ⟨true, ["a.mp3".data], []⟩).1.destFiles
      = (⟨true, ["a.mp3".data], []⟩ : StagingState).destFiles ∧
    (downloadClose 1 "mp3".data [] ⟨true, ["a.mp3".data], []⟩).2
      = some (failureMessage 1 []) :=
  claim_C2.1 1 "mp3".data [] ⟨true, ["a.mp3".data], []⟩ (by decide)

/-- C3: after a zero exit with exactly one file matching the expected
extension (mp3 for audio, mp4 otherwise) in the temp directory, the
destination contains that file and the temp directory is gone; the temp
directory is removed even when no file matched. -/
theorem claim_C3 :
    ∀ (fmt : String) (f : List Char) (st : StagingState),
      (matchingFiles (extFor fmt) st.tempFiles = [f] →
        f ∈ (downloadClose 0 (extFor fmt) [] st).1.destFiles ∧
        (downloadClose 0 (extFor fmt) [] st).1.tempExists = false) ∧
      (matchingFiles (extFor fmt) st.tempFiles = [] →
        (downloadClose 0 (extFor fmt) [] st).1.tempExists = false ∧
        (downloadClose 0 (extFor fmt) [] st).1.destFiles = st.destFiles) := by
  intro fmt f st
  constructor
  · intro h
    simp [downloadClose, h]
  · intro h
    simp [downloadClose, h]

/-- C3 witness: a concrete successful audio download with one matching
mp3 file staged. -/
theorem claim_C3_witness :
    "x.mp3".data ∈ (downloadClose 0 (extFor "audio") []
      ⟨true, ["x.mp3".data, "y.txt".data], []⟩).1.destFiles ∧
    (downloadClose 0 (extFor "audio") []
      ⟨true, ["x.mp3".data, "y.txt".data], []⟩).1.tempExists = false :=
  (claim_C3 "audio" "x.mp3".data ⟨true, ["x.mp3".data, "y.txt".data], []⟩).1 (by decide)

/-- C4 counterexample: the claim says A < 1 yields an empty result, but
`slice(start - 1, end)` turns A = 0 into the JS negative index -1, so
the range `0-10` over ten entries selects the last entry. -/
theorem claim_C4_counterexample :
    selectRange "0-10".data tenEntries = [10] ∧
    selectRange "0-10".data tenEntries ≠ [] := by
  decide

/-- C4 (amended): for `A-B` with A ≥ 1 the selection is the 1-indexed
inclusive slice, out-of-range B clamped to the length and A beyond the
length yielding an empty result; A = 0 becomes the JS negative slice
index -1 (selecting from the last entry) rather than yielding an empty
result; a comma-separated list resolves each 1-indexed position
independently, silently dropping out-of-range ones. -/
theorem claim_C4 :
    selectRange "2-4".data tenEntries = [2, 3, 4] ∧
    selectRange "1,3,50".data tenEntries = [1, 3] ∧
    selectRange "8-99".data tenEntries = [8, 9, 10] ∧
    selectRange "11-12".data tenEntries = [] ∧
    selectRange "0-10".data tenEntries = [10] ∧
    (∀ (α : Type) (l : List α) (A B : Nat), 1 ≤ A →
      jsSlice l ((A : Int) - 1) (B : Int) = (l.drop (A - 1)).take (B - (A - 1))) := by
  refine ⟨by decide, by decide, by decide, by decide, by decide, ?_⟩
  intro α l A B hA
  exact jsSlice_nat l A B hA

/-- C4 witness: the general slice characterization at A = 2, B = 4 over
the ten-entry playlist. -/
theorem claim_C4_witness :
    jsSlice tenEntries (((2 : Nat) : Int) - 1) ((4 : Nat) : Int)
      = (tenEntries.drop (2 - 1)).take (4 - (2 - 1)) :=
  claim_C4.2.2.2.2.2 Nat tenEntries 2 4 (by decide)

/-- C5: the batch loop is a sequential fold that continues past
per-item failures: the spec's 3-entry example yields counts (2, 1), the
counters are exactly the numbers of succeeding and failing entries, and
they always sum to the number of selected entries. -/
theorem claim_C5 :
    runBatch [true, false, true] = (2, 1) ∧
    (∀ l : List Bool, runBatch l = (l.count true, l.count false)) ∧
    (∀ l : List Bool, (runBatch l).1 + (runBatch l).2 = l.length) := by
  have hgen : ∀ l : List Bool, runBatch l = (l.count true, l.count false) := by
    intro l
    unfold runBatch
    rw [batch_foldl]
    simp
  refine ⟨by decide, hgen, ?_⟩
  intro l
  rw [hgen]
  exact count_true_add_count_false l

/-- C6: the spec's example line parses to percent 42.5 with speed label
`1.20MiB/s`, and a line with no percent match never changes the stored
percent (the parser is total — an unmatched line is a no-op). -/
theorem claim_C6 :
    (updateProgress dlLine startState).percent = 42.5 ∧
    (updateProgress dlLine startState).speed = "1.20MiB/s".data ∧
    (∀ (line : List Char) (st : ProgressState),
      firstPercentMatch line = none → (updateProgress line st).percent = st.percent) := by
  have hm : firstPercentMatch dlLine = some "42.5".data := by decide
  have hp : parseDecimal "42.5".data = 42.5 := by
    have h1 : "42.5".data.takeWhile isDig = ['4', '2'] := by decide
    have h2 : "42.5".data.dropWhile isDig = '.' :: ['5'] := by decide
    have hn1 : natDigits ['4', '2'] = 42 := by decide
    have hn2 : natDigits ['5'] = 5 := by decide
    simp only [parseDecimal, h1, h2]
    rw [hn1, hn2]
    norm_num
  refine ⟨by simp [updateProgress, hm, hp], by decide, ?_⟩
  intro line st h
  simp [updateProgress, h]

/-- C6 witness: a concrete line without a percent token is a percent
no-op. -/
theorem claim_C6_witness :
    (updateProgress "Merging formats".data startState).percent = startState.percent :=
  claim_C6.2.2 _ _ (by decide)

/-- C7 counterexample: the generic fallback message is the literal
`Download failed with code N`, not `failed with exit code N` as the
claim quotes it. -/
theorem claim_C7_counterexample :
    failureMessage 1 [] = "Download failed with code 1".data ∧
    failureMessage 1 [] ≠ "failed with exit code 1".data := by
  decide

/-- C7 (amended): when all attempts fail, the surfaced error is the last
attempt's message only; for a nonzero-exit download failure the message
is the trimmed capture of the `ERROR:` prefix pattern scanned from
accumulated stderr, falling back to the generic literal
`Download failed with code N` when no pattern matches. -/
theorem claim_C7 :
    (∀ (a1 a2 : AttemptRun) (m1 m2 : List Char),
      attemptOutcome a1 = some m1 → attemptOutcome a2 = some m2 →
      runRetry [a1, a2] = (some m2, 2)) ∧
    (∀ (code : Nat) (stderr cap : List Char), firstErrorMatch stderr = some cap →
      failureMessage code stderr = jsTrim cap) ∧
    (∀ (code : Nat) (stderr : List Char), firstErrorMatch stderr = none →
      failureMessage code stderr = "Download failed with code ".data ++ (Nat.repr code).data) ∧
    failureMessage 2 errLine = "Video unavailable".data := by
  refine ⟨?_, ?_, ?_, by decide⟩
  · intro a1 a2 m1 m2 h1 h2
    simp [runRetry, h1, h2]
  · intro code stderr cap h
    simp [failureMessage, h]
  · intro code stderr h
    simp [failureMessage, h]

/-- C7 witness: two concrete failing attempts surface only the second
attempt's message. -/
theorem claim_C7_witness :
    runRetry [⟨1, [], "a".data, false⟩, ⟨3, [], "b".data, false⟩] = (some "b".data, 2) :=
  claim_C7.1 _ _ "a".data "b".data (by decide) (by decide)

/-- C8: the argument builder is a pure function — equal inputs give the
identical argument vector — and for every supported (media kind,
quality) pair it produces the fixed, reviewed format-selection
expression. -/
theorem claim_C8 :
    (∀ (format quality : String) (cf : Option String) (ce : Bool) (tpl url : String),
      buildDownloadArgs format quality cf ce tpl url
        = buildDownloadArgs format quality cf ce tpl url) ∧
    buildDownloadArgs "audio" "highest" none false "T" "U"
      = ["--no-playlist", "-o", "\"T\"", "--restrict-filenames", "--newline",
         "--no-warnings", "--progress", "-x", "--audio-format", "mp3",
         "--audio-quality", "0", "U"] ∧
    buildDownloadArgs "audio" "lowest" none false "T" "U"
      = ["--no-playlist", "-o", "\"T\"", "--restrict-filenames", "--newline",
         "--no-warnings", "--progress", "-x", "--audio-format", "mp3",
         "--audio-quality", "0", "U"] ∧
    buildDownloadArgs "video" "highest" none false "T" "U"
      = ["--no-playlist", "-o", "\"T\"", "--restrict-filenames", "--newline",
         "--no-warnings", "--progress", "-f", "bestvideo[ext=mp4]/bestvideo",
         "--merge-output-format", "mp4", "U"] ∧
    buildDownloadArgs "video" "lowest" none false "T" "U"
      = ["--no-playlist", "-o", "\"T\"", "--restrict-filenames", "--newline",
         "--no-warnings", "--progress", "-f", "bestvideo[ext=mp4]/bestvideo",
         "--merge-output-format", "mp4", "U"] ∧
    buildDownloadArgs "both" "highest" none false "T" "U"
      = ["--no-playlist", "-o", "\"T\"", "--restrict-filenames", "--newline",
         "--no-warnings", "--progress", "-f",
         "bestvideo[ext=mp4]+bestaudio[ext=m4a]/best[ext=mp4]/best",
         "--merge-output-format", "mp4", "U"] ∧
    buildDownloadArgs "both" "lowest" none false "T" "U"
      = ["--no-playlist", "-o", "\"T\"", "--restrict-filenames", "--newline",
         "--no-warnings", "--progress", "-f",
         "worstvideo[ext=mp4]+worstaudio[ext=m4a]/worst[ext=mp4]/worst",
         "--merge-output-format", "mp4", "U"] := by
  exact ⟨fun _ _ _ _ _ _ => rfl, by decide, by decide, by decide, by decide,
    by decide, by decide⟩

/-- C9 counterexample: the parser stores the matched percent unclamped,
so a line with a 500% token drives `percent` outside [0, 100]. -/
theorem claim_C9_counterexample :
    (updateProgress overLine startState).percent = 500 ∧
    ¬ (updateProgress overLine startState).percent ≤ 100 := by
  have hm : firstPercentMatch overLine = some "500.0".data := by decide
  have hp : parseDecimal "500.0".data = 500 := by
    have h1 : "500.0".data.takeWhile isDig = ['5', '0', '0'] := by decide
    have h2 : "500.0".data.dropWhile isDig = '.' :: ['0'] := by decide
    have hn1 : natDigits ['5', '0', '0'] = 500 := by decide
    have hn2 : natDigits ['0'] = 0 := by decide
    simp only [parseDecimal, h1, h2]
    rw [hn1, hn2]
    norm_num
  constructor
  · simp [updateProgress, hm, hp]
  · simp only [updateProgress, hm]
    simp only [hp]
    norm_num

/-- C9 (amended): every parser update preserves nonnegativity of
`percent` unconditionally (the pattern captures unsigned digits), and
preserves `percent ≤ 100` provided every matched percent token on the
line parses to at most 100 — the code performs no clamping, so the
upper bound is an assumption on the subprocess's output, not an
invariant of the parser. -/
theorem claim_C9 :
    ∀ (line : List Char) (st : ProgressState),
      (0 ≤ st.percent → 0 ≤ (updateProgress line st).percent) ∧
      (st.percent ≤ 100 →
        (∀ cap, firstPercentMatch line = some cap → parseDecimal cap ≤ 100) →
        (updateProgress line st).percent ≤ 100) := by
  intro line st
  cases h : firstPercentMatch line with
  | none =>
    constructor
    · intro h0
      simpa [updateProgress, h] using h0
    · intro h0 _
      simpa [updateProgress, h] using h0
  | some cap =>
    constructor
    · intro _
      simpa [updateProgress, h] using parseDecimal_nonneg cap
    · intro _ hcap
      simpa [updateProgress, h] using hcap cap rfl

/-- C9 witness: the spec's example line keeps percent within [0, 100]. -/
theorem claim_C9_witness :
    0 ≤ (updateProgress dlLine startState).percent ∧
    (updateProgress dlLine startState).percent ≤ 100 := by
  constructor
  · exact (claim_C9 dlLine startState).1 (by norm_num [startState])
  · refine (claim_C9 dlLine startState).2 (by norm_num [startState]) ?_
    intro cap hc
    have h2 : firstPercentMatch dlLine = some "42.5".data := by decide
    have h3 : cap = "42.5".data := (Option.some.inj (h2.symm.trans hc)).symm
    have hp : parseDecimal "42.5".data = 42.5 := by
      have hd1 : "42.5".data.takeWhile isDig = ['4', '2'] := by decide
      have hd2 : "42.5".data.dropWhile isDig = '.' :: ['5'] := by decide
      have hn1 : natDigits ['4', '2'] = 42 := by decide
      have hn2 : natDigits ['5'] = 5 := by decide
      simp only [parseDecimal, hd1, hd2]
      rw [hn1, hn2]
      norm_num
    rw [h3, hp]
    norm_num

/-- C10: for every input the sanitizer returns a nonempty result of at
most 150 code units containing no forbidden filename character and no
whitespace, falling back to the literal `download` exactly when the
sanitized text is empty. -/
theorem claim_C10 :
    ∀ (l : List Nat) (ascii : Bool),
      sanitizeFilename l ascii ≠ [] ∧
      (sanitizeFilename l ascii).length ≤ 150 ∧
      (∀ u, u ∈ sanitizeFilename l ascii → forbiddenU u = false ∧ jsWsU u = false) ∧
      (sanitizeCore l ascii = [] → sanitizeFilename l ascii = downloadFallback) := by
  intro l ascii
  by_cases h : sanitizeCore l ascii = []
  · have he : sanitizeFilename l ascii = downloadFallback := by
      simp [sanitizeFilename, h]
    rw [he]
    refine ⟨by decide, by decide, ?_, fun _ => rfl⟩
    intro u hu
    have hall : ∀ u ∈ downloadFallback, forbiddenU u = false ∧ jsWsU u = false := by decide
    exact hall u hu
  · have he : sanitizeFilename l ascii = sanitizeCore l ascii := by
      simp [sanitizeFilename, h]
    rw [he]
    exact ⟨h, sanitizeCore_length_le l ascii, fun u hu => sanitizeCore_mem l ascii u hu,
      fun hc => absurd hc h⟩

/-- C10 witness: concrete runs of the sanitizer — a space becomes an
underscore, and forbidden-only input falls back to `download`. -/
theorem claim_C10_witness :
    sanitizeFilename [97, 32, 98] false ≠ [] ∧
    (forbiddenU 97 = false ∧ jsWsU 97 = false) ∧
    sanitizeFilename [60, 62] false = downloadFallback := by
  refine ⟨(claim_C10 [97, 32, 98] false).1, ?_, ?_⟩
  · exact (claim_C10 [97, 32, 98] false).2.2.1 97 (by decide)
  · exact (claim_C10 [60, 62] false).2.2.2 (by decide)

end YtDl
